import Mathlib

/-!
Verification of the CustomStorage client (src/CustomStorage.js).

The development shallowly embeds the storage client: JSON values are an
inductive type, the driver is a map from string keys to stored token
sequences, and each client operation is a pure function threading the
driver state and an explicit current time.  A stored string is modelled
by its JSON token sequence (the empty string is the empty sequence);
JavaScript numbers are modelled by the integer fragment plus NaN, which
is all the expiration bookkeeping exercises.  Exceptions that the code
can raise (JSON.parse on malformed data, property access in the time
parser) surface as an Except error together with the driver state at
the point of the throw.
-/

/-- JSON-representable values. Object fields are kept in insertion order,
matching both the serializer and the parser used here. -/
inductive Json where
  | null : Json
  | bool (b : Bool) : Json
  | num (n : Int) : Json
  | str (s : String) : Json
  | arr (xs : List Json) : Json
  | obj (fields : List (String × Json)) : Json

/-- Tokens of the serialized JSON text.  Working at token granularity keeps
string escaping out of the model while still letting malformed stored data
(arbitrary token sequences) be represented. -/
inductive Token where
  | lbrace : Token
  | rbrace : Token
  | lbrack : Token
  | rbrack : Token
  | colon : Token
  | comma : Token
  | tnull : Token
  | tbool (b : Bool) : Token
  | tnum (n : Int) : Token
  | tstr (s : String) : Token
deriving Repr, DecidableEq

mutual
/-- JSON.stringify at token granularity. -/
def Json.toTokens : Json → List Token
  | .null => [.tnull]
  | .bool b => [.tbool b]
  | .num n => [.tnum n]
  | .str s => [.tstr s]
  | .arr [] => [.lbrack, .rbrack]
  | .arr (x :: xs) => .lbrack :: (x.toTokens ++ arrTokens xs ++ [.rbrack])
  | .obj [] => [.lbrace, .rbrace]
  | .obj ((k, v) :: fs) =>
      .lbrace :: .tstr k :: .colon :: (v.toTokens ++ objTokens fs ++ [.rbrace])

/-- Tokens of the remaining array elements, each preceded by a comma. -/
def arrTokens : List Json → List Token
  | [] => []
  | x :: xs => .comma :: (x.toTokens ++ arrTokens xs)

/-- Tokens of the remaining object fields, each preceded by a comma. -/
def objTokens : List (String × Json) → List Token
  | [] => []
  | (k, v) :: fs => .comma :: .tstr k :: .colon :: (v.toTokens ++ objTokens fs)
end

mutual
/-- Structural size used as the parser fuel bound. -/
def Json.size : Json → Nat
  | .null | .bool _ | .num _ | .str _ => 1
  | .arr xs => 1 + sizeL xs
  | .obj fs => 1 + sizeF fs

/-- Combined size of array elements. -/
def sizeL : List Json → Nat
  | [] => 0
  | x :: xs => 1 + x.size + sizeL xs

/-- Combined size of object fields. -/
def sizeF : List (String × Json) → Nat
  | [] => 0
  | (_, v) :: fs => 1 + v.size + sizeF fs
end

mutual
/-- Recursive-descent JSON parser over tokens (fuel-indexed). Parses one
value and returns the remaining tokens. -/
def parseVal : Nat → List Token → Option (Json × List Token)
  | 0, _ => none
  | _ + 1, .tnull :: r => some (.null, r)
  | _ + 1, .tbool b :: r => some (.bool b, r)
  | _ + 1, .tnum n :: r => some (.num n, r)
  | _ + 1, .tstr s :: r => some (.str s, r)
  | n + 1, .lbrack :: r =>
      match parseVal n r with
      | some (x, r1) =>
          match parseArrTail n r1 with
          | some (xs, r2) => some (.arr (x :: xs), r2)
          | none => none
      | none =>
          match r with
          | .rbrack :: r1 => some (.arr [], r1)
          | _ => none
  | n + 1, .lbrace :: r =>
      match r with
      | .rbrace :: r1 => some (.obj [], r1)
      | .tstr k :: .colon :: r1 =>
          match parseVal n r1 with
          | some (v, r2) =>
              match parseObjTail n r2 with
              | some (fs, r3) => some (.obj ((k, v) :: fs), r3)
              | none => none
          | none => none
      | _ => none
  | _ + 1, _ => none

/-- Parses the rest of an array after one element: a closing bracket or a
comma followed by another element. -/
def parseArrTail : Nat → List Token → Option (List Json × List Token)
  | 0, _ => none
  | _ + 1, .rbrack :: r => some ([], r)
  | n + 1, .comma :: r =>
      match parseVal n r with
      | some (x, r1) =>
          match parseArrTail n r1 with
          | some (xs, r2) => some (x :: xs, r2)
          | none => none
      | none => none
  | _ + 1, _ => none

/-- Parses the rest of an object after one field. -/
def parseObjTail : Nat → List Token → Option (List (String × Json) × List Token)
  | 0, _ => none
  | _ + 1, .rbrace :: r => some ([], r)
  | n + 1, .comma :: .tstr k :: .colon :: r =>
      match parseVal n r with
      | some (v, r1) =>
          match parseObjTail n r1 with
          | some (fs, r2) => some ((k, v) :: fs, r2)
          | none => none
      | none => none
  | _ + 1, _ => none
end

/-- JSON.parse on a whole token sequence: one value consuming all tokens. -/
def JSONparse (ts : List Token) : Option Json :=
  match parseVal (ts.length + 1) ts with
  | some (v, []) => some v
  | _ => none

/-- JavaScript numbers, restricted to the integer fragment plus NaN.  NaN is
what the expiration parser produces on an unrecognized unit. -/
inductive JsNum where
  | nan : JsNum
  | int (n : Int) : JsNum
deriving Repr, DecidableEq

/-- The result of a JavaScript expression: a JSON-representable value or
undefined (property access on a missing field or non-object). -/
inductive JsVal where
  | undef : JsVal
  | val (j : Json) : JsVal

/-- JavaScript truthiness of a JSON value. -/
def jsTruthy : Json → Bool
  | .null => false
  | .bool b => b
  | .num n => n != 0
  | .str s => s != ""
  | .arr _ => true
  | .obj _ => true

/-- JavaScript truthiness of an expression result. -/
def jsValTruthy : JsVal → Bool
  | .undef => false
  | .val j => jsTruthy j

/-- Property access `j[name]`: the field of an object (last binding wins,
as after JSON.parse), undefined on anything else. -/
def getField : Json → String → JsVal
  | .obj fs, name =>
      match (fs.reverse.find? (fun kv => kv.1 = name)) with
      | some kv => .val kv.2
      | none => .undef
  | _, _ => .undef

mutual
/-- Element of an array-join string (Array.prototype.toString semantics):
null joins as the empty string, nested arrays join recursively. -/
def joinElem : Json → String
  | .null => ""
  | .bool b => if b then "true" else "false"
  | .num n => toString n
  | .str s => s
  | .arr xs => joinList xs
  | .obj _ => "[object Object]"

/-- Array elements joined with commas. -/
def joinList : List Json → String
  | [] => ""
  | [x] => joinElem x
  | x :: xs => joinElem x ++ "," ++ joinList xs
end

/-- Digits to a natural number. -/
def digitsToNat (l : List Char) : Nat :=
  l.foldl (fun a c => a * 10 + (c.toNat - '0'.toNat)) 0

/-- JavaScript ToNumber on a string, integer fragment: the empty string is 0,
an optionally signed digit string is its value, anything else is NaN
(decimal, exponent and hex literals are outside the modelled fragment). -/
def strToNum (s : String) : JsNum :=
  match s.data with
  | [] => .int 0
  | '-' :: rest =>
      if rest ≠ [] ∧ rest.all Char.isDigit then .int (-(digitsToNat rest : Int)) else .nan
  | '+' :: rest =>
      if rest ≠ [] ∧ rest.all Char.isDigit then .int (digitsToNat rest) else .nan
  | l => if l.all Char.isDigit then .int (digitsToNat l) else .nan

/-- JavaScript ToNumber of an expression result (objects convert through
the primitive string "[object Object]", hence NaN). -/
def jsToNumber : JsVal → JsNum
  | .undef => .nan
  | .val .null => .int 0
  | .val (.bool b) => .int (if b then 1 else 0)
  | .val (.num n) => .int n
  | .val (.str s) => strToNum s
  | .val (.arr xs) => strToNum (joinList xs)
  | .val (.obj _) => .nan

/-- The comparison `x < now` as JavaScript evaluates it in isExpired:
numeric comparison, false whenever a side is NaN. -/
def jsLtNum (x : JsVal) (now : Int) : Bool :=
  match jsToNumber x with
  | .nan => false
  | .int m => m < now

/-- NaN-propagating multiplication with a possibly undefined right factor
(`amount * TIME_UNITS[unit]` where the table lookup may be undefined). -/
def jsMul : JsNum → Option Int → JsNum
  | .int x, some y => .int (x * y)
  | _, _ => .nan

/-- NaN-propagating addition. -/
def jsAdd : JsNum → JsNum → JsNum
  | .int x, .int y => .int (x + y)
  | _, _ => .nan

/-- Own enumerable properties of a value, in for-in order: the fields of an
object, the indexed characters of a string, the indexed elements of an
array, nothing on other primitives. -/
def jsOwnEnumerable : Json → List (String × Json)
  | .obj fs => fs
  | .str s => (List.range s.length).zip (s.data.map (fun c => Json.str (String.mk [c])))
      |>.map (fun p => (toString p.1, p.2))
  | .arr xs => (List.range xs.length).zip xs |>.map (fun p => (toString p.1, p.2))
  | _ => []

/-- Property assignment `fs[k] = v` on an object's field list: overwrite in
place if the key exists, append otherwise. -/
def setProp (fs : List (String × Json)) (k : String) (v : Json) : List (String × Json) :=
  if fs.any (fun kv => kv.1 = k) then
    fs.map (fun kv => if kv.1 = k then (k, v) else kv)
  else fs ++ [(k, v)]

/-- The `extend` helper: copies every own enumerable property of `other`
onto `source` and returns `source`.  Property assignment mutates an object;
on a primitive it is a silent no-op (non-strict mode), so the primitive
comes back unchanged.  An array source is returned unchanged, which is its
JSON-observable behavior when `other` carries no numeric-index keys (the
only way arrays meet `extend` in this code). -/
def extend (source other : Json) : Json :=
  match source with
  | .obj fs => .obj ((jsOwnEnumerable other).foldl (fun acc kv => setProp acc kv.1 kv.2) fs)
  | s => s

/-- The driver's key space: string keys to stored token sequences.  Both the
localStorage driver and the in-memory fallback behave as this map (getItem
is falsy on an absent key in either). -/
def Store := String → Option (List Token)

/-- The empty driver state. -/
def Store.empty : Store := fun _ => none

/-- setItem. -/
def Store.insert (st : Store) (k : String) (v : List Token) : Store :=
  fun q => if q = k then some v else st q

/-- removeItem. -/
def Store.remove (st : Store) (k : String) : Store :=
  fun q => if q = k then none else st q

/-- CustomStorage.TIME_UNITS.SECOND, in milliseconds. -/
def CustomStorage.TIME_UNITS.SECOND : Int := 1000

/-- CustomStorage.TIME_UNITS.MINUTE. -/
def CustomStorage.TIME_UNITS.MINUTE : Int := 60 * CustomStorage.TIME_UNITS.SECOND

/-- CustomStorage.TIME_UNITS.HOUR. -/
def CustomStorage.TIME_UNITS.HOUR : Int := 60 * CustomStorage.TIME_UNITS.MINUTE

/-- CustomStorage.TIME_UNITS.DAY. -/
def CustomStorage.TIME_UNITS.DAY : Int := 24 * CustomStorage.TIME_UNITS.HOUR

/-- CustomStorage.TIME_UNITS.WEEK. -/
def CustomStorage.TIME_UNITS.WEEK : Int := 7 * CustomStorage.TIME_UNITS.DAY

/-- CustomStorage.TIME_UNITS.MONTH: thirty days, calendar-naive. -/
def CustomStorage.TIME_UNITS.MONTH : Int := 30 * CustomStorage.TIME_UNITS.DAY

/-- CustomStorage.TIME_UNITS.YEAR: 365 days, calendar-naive. -/
def CustomStorage.TIME_UNITS.YEAR : Int := 365 * CustomStorage.TIME_UNITS.DAY

/-- The CustomStorage.TIME_UNITS table; an unknown key reads as undefined. -/
def CustomStorage.TIME_UNITS : String → Option Int
  | "SECOND" => some CustomStorage.TIME_UNITS.SECOND
  | "MINUTE" => some CustomStorage.TIME_UNITS.MINUTE
  | "HOUR" => some CustomStorage.TIME_UNITS.HOUR
  | "DAY" => some CustomStorage.TIME_UNITS.DAY
  | "WEEK" => some CustomStorage.TIME_UNITS.WEEK
  | "MONTH" => some CustomStorage.TIME_UNITS.MONTH
  | "YEAR" => some CustomStorage.TIME_UNITS.YEAR
  | _ => none

/-- CustomStorage.normalizeTimeUnit: `timeUnit.replace(/s$/, '').toUpperCase()`.
The regex strips one trailing lowercase letter s only; upper-casing is the
ASCII mapping (the unit table is ASCII). -/
def CustomStorage.normalizeTimeUnit (u : String) : String :=
  let l := u.data
  let stripped := match l.getLast? with
    | some 's' => l.dropLast
    | _ => l
  String.mk (stripped.map Char.toUpper)

/-- CustomStorage.convertTimeUnitToMilliseconds. -/
def CustomStorage.convertTimeUnitToMilliseconds (u : String) : Option Int :=
  CustomStorage.TIME_UNITS (CustomStorage.normalizeTimeUnit u)

/-- String.prototype.split(' '): splits on each single space. -/
def splitAux : List Char → List Char → List String
  | [], acc => [String.mk acc.reverse]
  | ' ' :: rest, acc => String.mk acc.reverse :: splitAux rest []
  | c :: rest, acc => splitAux rest (c :: acc)

/-- `s.split(' ')` as used by convertExpirationStringToMilliseconds. -/
def splitOnSpace (s : String) : List String :=
  splitAux s.data []

/-- CustomStorage.convertExpirationStringToMilliseconds: takes parts 0 and 1
of the split, coerces the amount to a number and multiplies by the table
entry.  When the string has no space, part 1 is undefined and
normalizeTimeUnit throws a TypeError, modelled as none. -/
def CustomStorage.convertExpirationStringToMilliseconds (expiresIn : String) :
    Option JsNum :=
  match splitOnSpace expiresIn with
  | amount :: timeUnit :: _ =>
      some (jsMul (strToNum amount) (CustomStorage.convertTimeUnitToMilliseconds timeUnit))
  | _ => none

/-- CustomStorage.calculateExpirationTimestamp: current time plus the
converted duration (none models the TypeError on a spaceless string). -/
def CustomStorage.calculateExpirationTimestamp (now : Int) (expiresIn : String) :
    Option JsNum :=
  (CustomStorage.convertExpirationStringToMilliseconds expiresIn).map
    (fun ms => jsAdd (.int now) ms)

/-- The serialized envelope as a JSON value: `{ data: d }`, with an
`expiresAt` field appended when an expiration was computed.
JSON.stringify writes a NaN expiresAt as null. -/
def envelopeJson (d : Json) (expiresAt : Option JsNum) : Json :=
  .obj ([("data", d)] ++
    (match expiresAt with
     | none => []
     | some .nan => [("expiresAt", Json.null)]
     | some (.int n) => [("expiresAt", Json.num n)]))

/-- The options object of set, after the defaults `{expiresIn: false,
merge: false}` are extended with the caller's options.  `expiresIn` is
kept only when it is a string (`typeof options.expiresIn == 'string'`). -/
structure SetOptions where
  merge : Bool := false
  expiresIn : Option String := none

/-- CustomStorage.prototype.prefixKey. -/
def CustomStorage.prefixKey (p k : String) : String :=
  p ++ ":" ++ k

/-- CustomStorage.prototype.keyExists: `!!this.driver.getItem(prefixed)`. -/
def CustomStorage.keyExists (p : String) (st : Store) (k : String) : Bool :=
  match st (CustomStorage.prefixKey p k) with
  | some ts => !ts.isEmpty
  | none => false

/-- CustomStorage.prototype.isExpired: false on a falsy parsed item,
otherwise `storageItem.expiresAt < now` with JavaScript coercions. -/
def CustomStorage.isExpired (item : Json) (now : Int) : Bool :=
  if !(jsTruthy item) then false
  else jsLtNum (getField item "expiresAt") now

/-- CustomStorage.prototype.erase: removeItem on the prefixed key. -/
def CustomStorage.erase (p : String) (st : Store) (k : String) : Store :=
  Store.remove st (CustomStorage.prefixKey p k)

/-- CustomStorage.prototype.get.  Absent or empty stored strings return
null; a malformed stored string makes JSON.parse throw (error result,
state unchanged); an expired item is erased and null returned; otherwise
the result is `storageItem && storageItem.data`. -/
def CustomStorage.get (p : String) (st : Store) (now : Int) (k : String) :
    Except Unit JsVal × Store :=
  if !(CustomStorage.keyExists p st k) then (.ok (.val .null), st)
  else
    match st (CustomStorage.prefixKey p k) with
    | none => (.ok (.val .null), st)
    | some ts =>
        match JSONparse ts with
        | none => (.error (), st)
        | some item =>
            if CustomStorage.isExpired item now then
              (.ok (.val .null), CustomStorage.erase p st k)
            else if jsTruthy item then (.ok (getField item "data"), st)
            else (.ok (.val item), st)

/-- `this.get(key) || {}` in the merge branch of set. -/
def jsOrEmptyObj (v : JsVal) : Json :=
  match v with
  | .val j => if jsTruthy j then j else .obj []
  | .undef => .obj []

/-- CustomStorage.prototype.set.  With `merge` the data is
`extend(this.get(key) || {}, value)` (this inner get can throw on
malformed stored data, or lazily erase an expired entry); with a string
`expiresIn` the envelope gains an expiresAt timestamp (a spaceless string
throws); finally the envelope is stringified under the prefixed key. -/
def CustomStorage.set (p : String) (st : Store) (now : Int) (k : String)
    (value : Json) (options : SetOptions) : Except Unit Unit × Store :=
  match (if options.merge then
           match CustomStorage.get p st now k with
           | (.ok gv, st1) => Except.ok (extend (jsOrEmptyObj gv) value, st1)
           | (.error e, _) => Except.error e
         else Except.ok (value, st) : Except Unit (Json × Store)) with
  | .error e => (.error e, st)
  | .ok (d, st1) =>
      match options.expiresIn with
      | none =>
          (.ok (), Store.insert st1 (CustomStorage.prefixKey p k)
            (Json.toTokens (envelopeJson d none)))
      | some s =>
          match CustomStorage.calculateExpirationTimestamp now s with
          | none => (.error (), st1)
          | some t =>
              (.ok (), Store.insert st1 (CustomStorage.prefixKey p k)
                (Json.toTokens (envelopeJson d (some t))))

/-- CustomStorage.prototype.merge: `set(key, obj, { merge: true })`. -/
def CustomStorage.merge (p : String) (st : Store) (now : Int) (k : String)
    (obj : Json) : Except Unit Unit × Store :=
  CustomStorage.set p st now k obj { merge := true }

/-- CustomStorage.prototype.executeOnKey.  The callback is opaque: the
result records the argument list it was invoked with (empty or a
singleton).  `callbackIsFn` models `typeof callback == 'function'`.
A throwing get propagates before the options are consulted. -/
def CustomStorage.executeOnKey (p : String) (st : Store) (now : Int) (k : String)
    (callbackIsFn eraseOpt : Bool) : Except Unit (List JsVal) × Store :=
  match CustomStorage.get p st now k with
  | (.error e, st1) => (.error e, st1)
  | (.ok v, st1) =>
      let calls := if jsValTruthy v && callbackIsFn then [v] else []
      let st2 := if eraseOpt then CustomStorage.erase p st1 k else st1
      (.ok calls, st2)
/-- No-duplicate check on an object's field names. -/
def keysNodup : List (String × Json) → Bool
  | [] => true
  | (k, _) :: fs => !(fs.any (fun kv => kv.1 = k)) && keysNodup fs

mutual
/-- Well-formed JSON values: the image of actual JavaScript data, where an
object cannot bind the same key twice. -/
def Json.wf : Json → Bool
  | .null | .bool _ | .num _ | .str _ => true
  | .arr xs => wfList xs
  | .obj fs => keysNodup fs && wfFields fs

/-- Well-formedness of array elements. -/
def wfList : List Json → Bool
  | [] => true
  | x :: xs => x.wf && wfList xs

/-- Well-formedness of object field values. -/
def wfFields : List (String × Json) → Bool
  | [] => true
  | (_, v) :: fs => v.wf && wfFields fs
end

/-- A namespace identifier that avoids the separator character. -/
def colonFree (s : String) : Bool :=
  s.data.all (fun c => c ≠ ':')

theorem one_le_size (v : Json) : 1 ≤ v.size := by
  cases v <;> simp [Json.size]

theorem parseVal_rbrack (n : Nat) (r : List Token) : parseVal n (.rbrack :: r) = none := by
  cases n <;> simp [parseVal]

theorem parse_round (n : Nat) :
    (∀ v : Json, ∀ rest, v.size ≤ n → parseVal n (v.toTokens ++ rest) = some (v, rest)) ∧
    (∀ xs : List Json, ∀ rest, sizeL xs + 1 ≤ n →
      parseArrTail n (arrTokens xs ++ .rbrack :: rest) = some (xs, rest)) ∧
    (∀ fs : List (String × Json), ∀ rest, sizeF fs + 1 ≤ n →
      parseObjTail n (objTokens fs ++ .rbrace :: rest) = some (fs, rest)) := by
  induction n using Nat.strong_induction_on with
  | _ n ih =>
    refine ⟨?_, ?_, ?_⟩
    · intro v rest hsz
      have h1 := one_le_size v
      cases n with
      | zero => omega
      | succ m =>
        cases v with
        | null => simp [Json.toTokens, parseVal]
        | bool b => simp [Json.toTokens, parseVal]
        | num q => simp [Json.toTokens, parseVal]
        | str s => simp [Json.toTokens, parseVal]
        | arr xs =>
          cases xs with
          | nil => simp [Json.toTokens, parseVal, parseVal_rbrack]
          | cons x xs =>
            have hsz' : 1 + x.size + sizeL xs ≤ m := by
              simp [Json.size, sizeL] at hsz; omega
            have hx : x.size ≤ m := by omega
            have hxs : sizeL xs + 1 ≤ m := by omega
            have e1 := (ih m (Nat.lt_succ_self m)).1 x (arrTokens xs ++ .rbrack :: rest) hx
            have e2 := (ih m (Nat.lt_succ_self m)).2.1 xs rest hxs
            simp [Json.toTokens, parseVal, List.append_assoc, e1, e2]
        | obj fs =>
          cases fs with
          | nil => simp [Json.toTokens, parseVal]
          | cons kv fs =>
            obtain ⟨k, v⟩ := kv
            have hsz' : 1 + v.size + sizeF fs ≤ m := by
              simp [Json.size, sizeF] at hsz; omega
            have hv : v.size ≤ m := by omega
            have hfs : sizeF fs + 1 ≤ m := by omega
            have e1 := (ih m (Nat.lt_succ_self m)).1 v (objTokens fs ++ .rbrace :: rest) hv
            have e2 := (ih m (Nat.lt_succ_self m)).2.2 fs rest hfs
            simp [Json.toTokens, parseVal, List.append_assoc, e1, e2]
    · intro xs rest hsz
      cases n with
      | zero => omega
      | succ m =>
        cases xs with
        | nil => simp [arrTokens, parseArrTail]
        | cons y ys =>
          have hsz' : 1 + y.size + sizeL ys ≤ m := by
            simp [sizeL] at hsz; omega
          have hy : y.size ≤ m := by omega
          have hys : sizeL ys + 1 ≤ m := by omega
          have e1 := (ih m (Nat.lt_succ_self m)).1 y (arrTokens ys ++ .rbrack :: rest) hy
          have e2 := (ih m (Nat.lt_succ_self m)).2.1 ys rest hys
          simp [arrTokens, parseArrTail, List.append_assoc, e1, e2]
    · intro fs rest hsz
      cases n with
      | zero => omega
      | succ m =>
        cases fs with
        | nil => simp [objTokens, parseObjTail]
        | cons kv fs =>
          obtain ⟨k, v⟩ := kv
          have hsz' : 1 + v.size + sizeF fs ≤ m := by
            simp [sizeF] at hsz; omega
          have hv : v.size ≤ m := by omega
          have hfs : sizeF fs + 1 ≤ m := by omega
          have e1 := (ih m (Nat.lt_succ_self m)).1 v (objTokens fs ++ .rbrace :: rest) hv
          have e2 := (ih m (Nat.lt_succ_self m)).2.2 fs rest hfs
          simp [objTokens, parseObjTail, List.append_assoc, e1, e2]

mutual
theorem size_le_tok (v : Json) : v.size ≤ v.toTokens.length := by
  cases v with
  | null => simp [Json.size, Json.toTokens]
  | bool b => simp [Json.size, Json.toTokens]
  | num q => simp [Json.size, Json.toTokens]
  | str s => simp [Json.size, Json.toTokens]
  | arr xs =>
    cases xs with
    | nil => simp [Json.size, sizeL, Json.toTokens]
    | cons x xs =>
      have h1 := size_le_tok x
      have h2 := sizeL_le_tok xs
      simp [Json.size, sizeL, Json.toTokens]
      omega
  | obj fs =>
    cases fs with
    | nil => simp [Json.size, sizeF, Json.toTokens]
    | cons kv fs =>
      have h1 := size_le_tok kv.2
      have h2 := sizeF_le_tok fs
      simp [Json.size, sizeF, Json.toTokens]
      omega

theorem sizeL_le_tok (xs : List Json) : sizeL xs ≤ (arrTokens xs).length := by
  cases xs with
  | nil => simp [sizeL, arrTokens]
  | cons x xs =>
    have h1 := size_le_tok x
    have h2 := sizeL_le_tok xs
    simp [sizeL, arrTokens]
    omega

theorem sizeF_le_tok (fs : List (String × Json)) : sizeF fs ≤ (objTokens fs).length := by
  cases fs with
  | nil => simp [sizeF, objTokens]
  | cons kv fs =>
    have h1 := size_le_tok kv.2
    have h2 := sizeF_le_tok fs
    simp [sizeF, objTokens]
    omega
end

theorem JSONparse_toTokens (v : Json) : JSONparse v.toTokens = some v := by
  have h := (parse_round (v.toTokens.length + 1)).1 v []
    (by have := size_le_tok v; omega)
  simp at h
  simp [JSONparse, h]

theorem Store.insert_self (st : Store) (k : String) (v : List Token) :
    Store.insert st k v k = some v := by
  simp [Store.insert]

theorem Store.insert_other (st : Store) (k q : String) (v : List Token) (h : q ≠ k) :
    Store.insert st k v q = st q := by
  simp [Store.insert, h]

theorem Store.remove_self (st : Store) (k : String) : Store.remove st k k = none := by
  simp [Store.remove]

theorem Store.remove_other (st : Store) (k q : String) (h : q ≠ k) :
    Store.remove st k q = st q := by
  simp [Store.remove, h]

theorem envelopeJson_eq (d : Json) (e : Option JsNum) :
    envelopeJson d e = .obj (("data", d) ::
      (match e with
       | none => []
       | some .nan => [("expiresAt", Json.null)]
       | some (.int n) => [("expiresAt", Json.num n)])) := by
  simp [envelopeJson]

theorem getField_env_data (d : Json) (e : Option JsNum) :
    getField (envelopeJson d e) "data" = .val d := by
  rcases e with _ | e
  · simp [envelopeJson, getField]
  · rcases e with _ | n <;> simp [envelopeJson, getField]

theorem isExpired_env_none (d : Json) (now : Int) :
    CustomStorage.isExpired (envelopeJson d none) now = false := by
  simp [envelopeJson, CustomStorage.isExpired, jsTruthy, getField, jsLtNum, jsToNumber]

theorem isExpired_env_int (d : Json) (t now : Int) :
    CustomStorage.isExpired (envelopeJson d (some (.int t))) now = decide (t < now) := by
  simp [envelopeJson, CustomStorage.isExpired, jsTruthy, getField, jsLtNum, jsToNumber]

theorem isExpired_env_nan (d : Json) (now : Int) :
    CustomStorage.isExpired (envelopeJson d (some .nan)) now = decide (0 < now) := by
  simp [envelopeJson, CustomStorage.isExpired, jsTruthy, getField, jsLtNum, jsToNumber]

theorem env_toTokens_ne_nil (d : Json) (e : Option JsNum) :
    (Json.toTokens (envelopeJson d e)).isEmpty = false := by
  rw [envelopeJson_eq]
  simp [Json.toTokens]

theorem jsTruthy_env (d : Json) (e : Option JsNum) :
    jsTruthy (envelopeJson d e) = true := by
  rw [envelopeJson_eq]; simp [jsTruthy]

theorem get_envelope (p : String) (st : Store) (now : Int) (k : String)
    (d : Json) (e : Option JsNum)
    (hst : st (CustomStorage.prefixKey p k) = some (Json.toTokens (envelopeJson d e))) :
    CustomStorage.get p st now k =
      if CustomStorage.isExpired (envelopeJson d e) now then
        (.ok (.val .null), CustomStorage.erase p st k)
      else (.ok (.val d), st) := by
  unfold CustomStorage.get CustomStorage.keyExists
  rw [hst]
  simp [env_toTokens_ne_nil, JSONparse_toTokens, jsTruthy_env, getField_env_data]

theorem get_frame (p : String) (st : Store) (now : Int) (k q : String)
    (h : q ≠ CustomStorage.prefixKey p k) :
    (CustomStorage.get p st now k).2 q = st q := by
  unfold CustomStorage.get
  split
  · rfl
  · split
    · rfl
    · split
      · rfl
      · split
        · simp [CustomStorage.erase, Store.remove, h]
        · split
          · rfl
          · rfl

theorem set_frame (p : String) (st : Store) (now : Int) (k : String) (v : Json)
    (o : SetOptions) (q : String) (h : q ≠ CustomStorage.prefixKey p k) :
    (CustomStorage.set p st now k v o).2 q = st q := by
  unfold CustomStorage.set
  split
  · rfl
  · next d st1 heq =>
    have hst1 : st1 q = st q := by
      by_cases hm : o.merge
      · rw [if_pos hm] at heq
        rcases hg : CustomStorage.get p st now k with ⟨r, st2⟩
        rw [hg] at heq
        cases r with
        | ok gv =>
            simp only [Except.ok.injEq, Prod.mk.injEq] at heq
            have hsub : st1 = st2 := heq.2.symm
            subst hsub
            have := get_frame p st now k q h
            rw [hg] at this
            exact this
        | error e => simp at heq
      · rw [if_neg hm] at heq
        simp only [Except.ok.injEq, Prod.mk.injEq] at heq
        rw [← heq.2]
    split
    · simp [Store.insert, h, hst1]
    · split
      · exact hst1
      · simp [Store.insert, h, hst1]

theorem erase_frame (p : String) (st : Store) (k q : String)
    (h : q ≠ CustomStorage.prefixKey p k) :
    CustomStorage.erase p st k q = st q := by
  simp [CustomStorage.erase, Store.remove, h]

theorem executeOnKey_frame (p : String) (st : Store) (now : Int) (k q : String)
    (cb er : Bool) (h : q ≠ CustomStorage.prefixKey p k) :
    (CustomStorage.executeOnKey p st now k cb er).2 q = st q := by
  unfold CustomStorage.executeOnKey
  rcases hg : CustomStorage.get p st now k with ⟨r, st1⟩
  have hst1 : st1 q = st q := by
    have := get_frame p st now k q h
    rw [hg] at this
    exact this
  cases r with
  | error e => exact hst1
  | ok v =>
      cases er with
      | false => simpa using hst1
      | true => simpa [CustomStorage.erase, Store.remove, h] using hst1

theorem get_absent (p : String) (st : Store) (now : Int) (k : String)
    (h : st (CustomStorage.prefixKey p k) = none) :
    CustomStorage.get p st now k = (.ok (.val .null), st) := by
  unfold CustomStorage.get CustomStorage.keyExists
  rw [h]
  simp

theorem get_fst_congr (p : String) (st st2 : Store) (now : Int) (k : String)
    (h : st (CustomStorage.prefixKey p k) = st2 (CustomStorage.prefixKey p k)) :
    (CustomStorage.get p st now k).1 = (CustomStorage.get p st2 now k).1 := by
  unfold CustomStorage.get CustomStorage.keyExists
  rw [h]
  rcases hv : st2 (CustomStorage.prefixKey p k) with _ | ts
  · simp
  · by_cases hts : ts = []
    · simp [hts]
    · rcases hj : JSONparse ts with _ | item
      · simp [hts, hj]
      · by_cases hex : CustomStorage.isExpired item now <;>
          by_cases ht : jsTruthy item <;> simp [hts, hj, hex, ht]

theorem data_append (a b : String) : (a ++ b).data = a.data ++ b.data := rfl

theorem append_colon_inj (a1 b1 a2 b2 : List Char)
    (h1 : ':' ∉ a1) (h2 : ':' ∉ a2)
    (he : a1 ++ ':' :: b1 = a2 ++ ':' :: b2) : a1 = a2 ∧ b1 = b2 := by
  induction a1 generalizing a2 with
  | nil =>
    cases a2 with
    | nil => simpa using he
    | cons c a2 =>
      simp at he
      exact absurd (by rw [he.1]; exact List.mem_cons_self _ _) h2
  | cons c a1 ih =>
    cases a2 with
    | nil =>
      simp at he
      exact absurd (by rw [he.1]; exact List.mem_cons_self _ _) h1
    | cons c2 a2 =>
      simp at he
      obtain ⟨hc, he2⟩ := he
      have hr := ih a2 (fun hm => h1 (List.mem_cons_of_mem _ hm))
        (fun hm => h2 (List.mem_cons_of_mem _ hm)) he2
      exact ⟨by rw [hc, hr.1], hr.2⟩

theorem prefixKey_inj (p1 p2 k1 k2 : String)
    (hc1 : colonFree p1 = true) (hc2 : colonFree p2 = true)
    (he : CustomStorage.prefixKey p1 k1 = CustomStorage.prefixKey p2 k2) :
    p1 = p2 ∧ k1 = k2 := by
  have hd : p1.data ++ ':' :: k1.data = p2.data ++ ':' :: k2.data := by
    have h0 := congrArg String.data he
    simpa [CustomStorage.prefixKey, data_append] using h0
  have hm1 : ':' ∉ p1.data := by
    simp [colonFree, List.all_eq_true] at hc1
    intro hmem; exact hc1 ':' hmem rfl
  have hm2 : ':' ∉ p2.data := by
    simp [colonFree, List.all_eq_true] at hc2
    intro hmem; exact hc2 ':' hmem rfl
  obtain ⟨e1, e2⟩ := append_colon_inj _ _ _ _ hm1 hm2 hd
  exact ⟨String.ext e1, String.ext e2⟩

theorem foldl_setProp_append (fs : List (String × Json)) :
    ∀ acc : List (String × Json), keysNodup fs = true →
    (∀ kv ∈ fs, acc.any (fun p2 => p2.1 = kv.1) = false) →
    fs.foldl (fun a kv => setProp a kv.1 kv.2) acc = acc ++ fs := by
  induction fs with
  | nil => intro acc _ _; simp
  | cons kv fs ih =>
    intro acc hnd hdisj
    obtain ⟨k, v⟩ := kv
    have hk : acc.any (fun p2 => p2.1 = k) = false := hdisj (k, v) (List.mem_cons_self _ _)
    have hnd' : (!(fs.any (fun kv2 => kv2.1 = k))) = true ∧ keysNodup fs = true := by
      simpa [keysNodup, Bool.and_eq_true] using hnd
    have hknotin : ∀ kv2 ∈ fs, kv2.1 ≠ k := by
      intro kv2 hm
      have h5 : fs.any (fun kv2 => kv2.1 = k) = false := by simpa using hnd'.1
      intro hkk
      have h6 : fs.any (fun kv2 => kv2.1 = k) = true :=
        List.any_eq_true.mpr ⟨kv2, hm, by simp [hkk]⟩
      rw [h5] at h6
      cases h6
    have step : setProp acc k v = acc ++ [(k, v)] := by
      simp [setProp, hk]
    have hdisj2 : ∀ kv2 ∈ fs, (acc ++ [(k, v)]).any (fun p2 => p2.1 = kv2.1) = false := by
      intro kv2 hm
      rw [List.any_append]
      have ha : acc.any (fun p2 => p2.1 = kv2.1) = false :=
        hdisj kv2 (List.mem_cons_of_mem _ hm)
      have hb : ([(k, v)] : List (String × Json)).any (fun p2 => p2.1 = kv2.1) = false := by
        have h7 : k ≠ kv2.1 := fun hkq => hknotin kv2 hm hkq.symm
        simp [h7]
      rw [ha, hb]
      rfl
    calc ((k, v) :: fs).foldl (fun a kv2 => setProp a kv2.1 kv2.2) acc
        = fs.foldl (fun a kv2 => setProp a kv2.1 kv2.2) (setProp acc k v) := by simp
      _ = fs.foldl (fun a kv2 => setProp a kv2.1 kv2.2) (acc ++ [(k, v)]) := by rw [step]
      _ = (acc ++ [(k, v)]) ++ fs := ih (acc ++ [(k, v)]) hnd'.2 hdisj2
      _ = acc ++ ((k, v) :: fs) := by simp

theorem extend_emptyObj (fs : List (String × Json)) (hnd : keysNodup fs = true) :
    extend (.obj []) (.obj fs) = .obj fs := by
  have h := foldl_setProp_append fs [] hnd (by intro kv _; simp)
  simp [extend, jsOwnEnumerable]
  simpa using h

theorem jsOrEmptyObj_falsy (gv : JsVal) (h : jsValTruthy gv = false) :
    jsOrEmptyObj gv = .obj [] := by
  cases gv with
  | undef => rfl
  | val j => simp [jsValTruthy] at h; simp [jsOrEmptyObj, h]

/-- C1 counterexample: with the stored string under the prefixed key present
and truthy but not valid JSON (a lone opening brace), get does not return
null — JSON.parse has no try/catch around it in the source, so the parse
error propagates to the caller (the state is left unchanged). -/
theorem get_malformed_raises_cex :
    (Store.insert Store.empty "p:k" [Token.lbrace]) (CustomStorage.prefixKey "p" "k")
        = some [Token.lbrace]
    ∧ ([Token.lbrace] : List Token) ≠ []
    ∧ JSONparse [Token.lbrace] = none
    ∧ CustomStorage.get "p" (Store.insert Store.empty "p:k" [Token.lbrace]) 0 "k"
        = (.error (), Store.insert Store.empty "p:k" [Token.lbrace]) :=
  ⟨rfl, by simp, rfl, rfl⟩

/-- C1 amended: whenever the stored string under the prefixed key is present,
truthy, and not valid JSON, get raises the parse error to the caller
(instead of swallowing it) and leaves the driver state unchanged. -/
theorem get_malformed_raises (p : String) (st : Store) (now : Int) (k : String)
    (ts : List Token)
    (hst : st (CustomStorage.prefixKey p k) = some ts)
    (hne : ts ≠ [])
    (hbad : JSONparse ts = none) :
    CustomStorage.get p st now k = (.error (), st) := by
  unfold CustomStorage.get CustomStorage.keyExists
  rw [hst]
  simp [hne, hbad]

/-- C1 witness: the amended theorem applied at a concrete malformed entry. -/
theorem get_malformed_raises_witness :
    CustomStorage.get "p" (Store.insert Store.empty "p:k" [Token.lbrace]) 0 "k"
      = (.error (), Store.insert Store.empty "p:k" [Token.lbrace]) :=
  get_malformed_raises "p" (Store.insert Store.empty "p:k" [Token.lbrace]) 0 "k"
    [Token.lbrace] rfl (by simp) rfl

/-- C2 counterexample: an envelope whose expiresAt equals the current time
exactly is NOT treated as expired — isExpired uses a strict comparison, so
get returns the stored value and removes nothing, contradicting the claim
that expiry at the current time returns null and erases. -/
theorem get_expiry_boundary_cex :
    CustomStorage.get "p"
      (Store.insert Store.empty "p:k"
        (Json.toTokens (envelopeJson (.str "x") (some (.int 1000))))) 1000 "k"
      = (.ok (.val (.str "x")),
         Store.insert Store.empty "p:k"
           (Json.toTokens (envelopeJson (.str "x") (some (.int 1000)))))
    ∧ (Except.ok (JsVal.val (.str "x")) : Except Unit JsVal) ≠ .ok (.val .null) :=
  ⟨rfl, by simp⟩

/-- C2 amended: an envelope whose expiresAt is strictly before the current
time is lazily deleted: get erases the prefixed key and returns null. -/
theorem get_expired_strict (p : String) (st : Store) (now : Int) (k : String)
    (d : Json) (t : Int)
    (hst : st (CustomStorage.prefixKey p k)
      = some (Json.toTokens (envelopeJson d (some (.int t)))))
    (hlt : t < now) :
    CustomStorage.get p st now k = (.ok (.val .null), CustomStorage.erase p st k) := by
  rw [get_envelope p st now k d (some (.int t)) hst]
  simp [isExpired_env_int, hlt]

/-- C2 witness: a concrete entry that expired one millisecond ago. -/
theorem get_expired_strict_witness :
    CustomStorage.get "p"
      (Store.insert Store.empty "p:k"
        (Json.toTokens (envelopeJson (.str "x") (some (.int 999))))) 1000 "k"
      = (.ok (.val .null),
         CustomStorage.erase "p"
           (Store.insert Store.empty "p:k"
             (Json.toTokens (envelopeJson (.str "x") (some (.int 999))))) "k") :=
  get_expired_strict "p" _ 1000 "k" (.str "x") 999 rfl (by decide)

/-- C4: storing any well-formed JSON value with no options and reading it
back (at any read time — no expiration is involved) returns a value
structurally equal to the one written. -/
theorem set_get_roundtrip (p : String) (st : Store) (now nowR : Int) (k : String)
    (v : Json) (hwf : v.wf = true) :
    (CustomStorage.set p st now k v {}).1 = .ok ()
    ∧ (CustomStorage.get p (CustomStorage.set p st now k v {}).2 nowR k).1
        = .ok (.val v) := by
  have h2 : CustomStorage.set p st now k v {}
      = (.ok (), Store.insert st (CustomStorage.prefixKey p k)
          (Json.toTokens (envelopeJson v none))) := rfl
  constructor
  · rw [h2]
  · rw [h2]
    rw [get_envelope p _ nowR k v none (Store.insert_self _ _ _)]
    simp [isExpired_env_none]

/-- C4 witness: a concrete round trip through set and get. -/
theorem set_get_roundtrip_witness :
    (CustomStorage.set "p" Store.empty 0 "k" (.obj [("a", .num 1)]) {}).1 = .ok ()
    ∧ (CustomStorage.get "p"
        (CustomStorage.set "p" Store.empty 0 "k" (.obj [("a", .num 1)]) {}).2 5 "k").1
        = .ok (.val (.obj [("a", .num 1)])) :=
  set_get_roundtrip "p" Store.empty 0 5 "k" (.obj [("a", .num 1)]) (by rfl)

/-- C3 counterexample: when the existing stored data is a truthy non-mapping
(the string "bar"), merge does NOT treat the base as empty: property
assignment on a primitive is a silent no-op, so the old primitive is kept
and the merged object's fields are discarded entirely. -/
theorem merge_truthy_primitive_cex :
    (CustomStorage.merge "p"
        (Store.insert Store.empty "p:k" (Json.toTokens (envelopeJson (.str "bar") none)))
        0 "k" (.obj [("a", .num 1)])).2 (CustomStorage.prefixKey "p" "k")
      = some (Json.toTokens (envelopeJson (.str "bar") none))
    ∧ (CustomStorage.get "p"
        ((CustomStorage.merge "p"
          (Store.insert Store.empty "p:k" (Json.toTokens (envelopeJson (.str "bar") none)))
          0 "k" (.obj [("a", .num 1)])).2) 0 "k").1
      = .ok (.val (.str "bar")) :=
  ⟨rfl, rfl⟩

/-- C3 amended: when the current get yields a falsy value (key absent,
entry expired, or stored data a falsy primitive), merging a mapping makes
its own fields the entire new value, and a subsequent get returns exactly
that mapping. -/
theorem merge_falsy_base (p : String) (st : Store) (now : Int) (k : String)
    (fs : List (String × Json)) (hwf : (Json.obj fs).wf = true)
    (gv : JsVal) (st1 : Store)
    (hget : CustomStorage.get p st now k = (.ok gv, st1))
    (hfal : jsValTruthy gv = false) :
    CustomStorage.merge p st now k (.obj fs)
      = (.ok (), Store.insert st1 (CustomStorage.prefixKey p k)
          (Json.toTokens (envelopeJson (.obj fs) none)))
    ∧ (CustomStorage.get p
        (Store.insert st1 (CustomStorage.prefixKey p k)
          (Json.toTokens (envelopeJson (.obj fs) none))) now k).1
      = .ok (.val (.obj fs)) := by
  have hnd : keysNodup fs = true := by
    simp [Json.wf, Bool.and_eq_true] at hwf
    exact hwf.1
  constructor
  · unfold CustomStorage.merge CustomStorage.set
    rw [hget]
    simp only [jsOrEmptyObj_falsy gv hfal, extend_emptyObj fs hnd]
    simp
  · rw [get_envelope p _ now k (.obj fs) none (Store.insert_self _ _ _)]
    simp [isExpired_env_none]

/-- C3 witness: merging onto an absent key stores exactly the mapping. -/
theorem merge_falsy_base_witness :
    CustomStorage.merge "p" Store.empty 0 "k" (.obj [("a", .num 1)])
      = (.ok (), Store.insert Store.empty (CustomStorage.prefixKey "p" "k")
          (Json.toTokens (envelopeJson (.obj [("a", .num 1)]) none)))
    ∧ (CustomStorage.get "p"
        (Store.insert Store.empty (CustomStorage.prefixKey "p" "k")
          (Json.toTokens (envelopeJson (.obj [("a", .num 1)]) none))) 0 "k").1
      = .ok (.val (.obj [("a", .num 1)])) :=
  merge_falsy_base "p" Store.empty 0 "k" [("a", .num 1)] (by rfl)
    (.val .null) Store.empty rfl rfl

/-- C5 counterexample: the duration "2 MINUTES" — an upper-case variant with
a trailing S — does not resolve through the unit table: the regex strips
only a lowercase trailing s, so the lookup misses and the computation
yields NaN instead of now plus two minutes. -/
theorem duration_uppercase_s_cex :
    CustomStorage.calculateExpirationTimestamp 0 "2 MINUTES" = some .nan
    ∧ CustomStorage.normalizeTimeUnit "MINUTES" = "MINUTES"
    ∧ CustomStorage.TIME_UNITS "MINUTES" = none
    ∧ (some JsNum.nan : Option JsNum)
        ≠ some (.int (0 + 2 * CustomStorage.TIME_UNITS.MINUTE)) :=
  ⟨rfl, rfl, rfl, by decide⟩

/-- C5 amended: for a duration "amount unit" whose unit resolves through the
table after stripping one trailing LOWERCASE s and upper-casing (any case
variant of the singular unit, or one ending in a lowercase s), the
expiration computation yields current time plus amount times the table
value for that unit. -/
theorem duration_table_lookup (now : Int) (s a u : String) (n m : Int)
    (hsplit : splitOnSpace s = [a, u])
    (ha : strToNum a = .int n)
    (hu : CustomStorage.TIME_UNITS (CustomStorage.normalizeTimeUnit u) = some m) :
    CustomStorage.calculateExpirationTimestamp now s = some (.int (now + n * m)) := by
  unfold CustomStorage.calculateExpirationTimestamp
    CustomStorage.convertExpirationStringToMilliseconds
    CustomStorage.convertTimeUnitToMilliseconds
  rw [hsplit]
  simp [ha, hu, jsMul, jsAdd]

/-- C5 witness: two lowercase minutes from time 5. -/
theorem duration_table_lookup_witness :
    CustomStorage.calculateExpirationTimestamp 5 "2 minutes"
      = some (.int (5 + 2 * CustomStorage.TIME_UNITS.MINUTE)) :=
  duration_table_lookup 5 "2 minutes" "2" "minutes" 2
    CustomStorage.TIME_UNITS.MINUTE rfl rfl rfl

/-- C6 counterexample: a stored envelope carries expiresAt 5000; set with
merge and no expiresIn rebuilds the envelope from scratch, so the stored
entry afterwards has no expiresAt field at all (property access on the
reparsed envelope is undefined) — the expiration metadata is discarded,
not left unchanged. -/
theorem merge_drops_expiry_cex :
    (Store.insert Store.empty "p:k"
        (Json.toTokens (envelopeJson (.obj [("a", .num 1)]) (some (.int 5000)))))
      (CustomStorage.prefixKey "p" "k")
      = some (Json.toTokens (envelopeJson (.obj [("a", .num 1)]) (some (.int 5000))))
    ∧ (CustomStorage.merge "p"
        (Store.insert Store.empty "p:k"
          (Json.toTokens (envelopeJson (.obj [("a", .num 1)]) (some (.int 5000)))))
        0 "k" (.obj [("b", .num 2)])).2 (CustomStorage.prefixKey "p" "k")
      = some (Json.toTokens (envelopeJson (.obj [("a", .num 1), ("b", .num 2)]) none))
    ∧ getField (envelopeJson (.obj [("a", .num 1), ("b", .num 2)]) none) "expiresAt"
      = .undef :=
  ⟨rfl, rfl, rfl⟩

/-- C6 amended: set with merge and no expiresIn unconditionally overwrites
the whole envelope: the new stored envelope carries no expiresAt (any
previous expiration metadata is discarded) and is never judged expired at
any later read time. -/
theorem merge_overwrites_envelope (p : String) (st : Store) (now : Int) (k : String)
    (v : Json) (gv : JsVal) (st1 : Store)
    (hget : CustomStorage.get p st now k = (.ok gv, st1)) :
    CustomStorage.merge p st now k v
      = (.ok (), Store.insert st1 (CustomStorage.prefixKey p k)
          (Json.toTokens (envelopeJson (extend (jsOrEmptyObj gv) v) none)))
    ∧ ∀ t : Int,
        CustomStorage.isExpired (envelopeJson (extend (jsOrEmptyObj gv) v) none) t
          = false := by
  constructor
  · unfold CustomStorage.merge CustomStorage.set
    rw [hget]
    simp
  · intro t
    exact isExpired_env_none _ t

/-- C6 witness: merging over a concrete envelope that carried expiresAt. -/
theorem merge_overwrites_envelope_witness :
    CustomStorage.merge "p"
      (Store.insert Store.empty "p:k"
        (Json.toTokens (envelopeJson (.obj [("a", .num 1)]) (some (.int 5000)))))
      0 "k" (.obj [("b", .num 2)])
      = (.ok (), Store.insert
          (Store.insert Store.empty "p:k"
            (Json.toTokens (envelopeJson (.obj [("a", .num 1)]) (some (.int 5000)))))
          (CustomStorage.prefixKey "p" "k")
          (Json.toTokens (envelopeJson
            (extend (jsOrEmptyObj (.val (.obj [("a", .num 1)]))) (.obj [("b", .num 2)]))
            none)))
    ∧ ∀ t : Int,
        CustomStorage.isExpired
          (envelopeJson
            (extend (jsOrEmptyObj (.val (.obj [("a", .num 1)]))) (.obj [("b", .num 2)]))
            none) t = false :=
  merge_overwrites_envelope "p" _ 0 "k" (.obj [("b", .num 2)])
    (.val (.obj [("a", .num 1)])) _ rfl

/-- C7 counterexample: with prefixes "a" and "a:b" (distinct and non-empty)
the composed driver keys collide: client "a" writing logical key "b:c"
lands on the same driver key as client "a:b" reading logical key "c", so a
set by one changes the other's get. -/
theorem namespace_collision_cex :
    ("a" : String) ≠ "a:b"
    ∧ CustomStorage.prefixKey "a" "b:c" = CustomStorage.prefixKey "a:b" "c"
    ∧ (CustomStorage.get "a:b" Store.empty 0 "c").1 = .ok (.val .null)
    ∧ (CustomStorage.get "a:b"
        ((CustomStorage.set "a" Store.empty 0 "b:c" (.str "x") {}).2) 0 "c").1
      = .ok (.val (.str "x")) :=
  ⟨by decide, rfl, rfl, rfl⟩

/-- C7 amended: for two clients over the same driver with distinct non-empty
prefixes neither of which contains the separator character, no set or erase
by one client ever changes the result of any get by the other. -/
theorem distinct_namespaces_isolated (p1 p2 : String)
    (h1 : p1 ≠ "") (h2 : p2 ≠ "")
    (hc1 : colonFree p1 = true) (hc2 : colonFree p2 = true)
    (hne : p1 ≠ p2) (k1 k2 : String) (st : Store) (now1 now2 : Int)
    (v : Json) (o : SetOptions) :
    (CustomStorage.get p2 ((CustomStorage.set p1 st now1 k1 v o).2) now2 k2).1
      = (CustomStorage.get p2 st now2 k2).1
    ∧ (CustomStorage.get p2 (CustomStorage.erase p1 st k1) now2 k2).1
      = (CustomStorage.get p2 st now2 k2).1 := by
  have hkne : CustomStorage.prefixKey p2 k2 ≠ CustomStorage.prefixKey p1 k1 := by
    intro he
    exact hne ((prefixKey_inj p2 p1 k2 k1 hc2 hc1 he).1).symm
  constructor
  · exact get_fst_congr p2 _ st now2 k2 (set_frame p1 st now1 k1 v o _ hkne)
  · exact get_fst_congr p2 _ st now2 k2 (erase_frame p1 st k1 _ hkne)

/-- C7 witness: concrete colon-free prefixes "a" and "b". -/
theorem distinct_namespaces_isolated_witness :
    (CustomStorage.get "b" ((CustomStorage.set "a" Store.empty 0 "k" (.str "x") {}).2) 0 "k").1
      = (CustomStorage.get "b" Store.empty 0 "k").1
    ∧ (CustomStorage.get "b" (CustomStorage.erase "a" Store.empty "k") 0 "k").1
      = (CustomStorage.get "b" Store.empty 0 "k").1 :=
  distinct_namespaces_isolated "a" "b" (by decide) (by decide) (by decide) (by decide)
    (by decide) "k" "k" Store.empty 0 0 (.str "x") {}

/-- C8 counterexample: the key is present (a stored, non-expired entry: data
false) and erase is requested, yet the callback is never invoked — the code
guards the call on the truthiness of the VALUE, not on key presence.  The
erase still happens. -/
theorem executeOnKey_falsy_cex :
    CustomStorage.keyExists "p"
      (Store.insert Store.empty "p:k" (Json.toTokens (envelopeJson (.bool false) none)))
      "k" = true
    ∧ CustomStorage.isExpired (envelopeJson (.bool false) none) 0 = false
    ∧ CustomStorage.executeOnKey "p"
        (Store.insert Store.empty "p:k" (Json.toTokens (envelopeJson (.bool false) none)))
        0 "k" true true
      = (.ok [],
         CustomStorage.erase "p"
           (Store.insert Store.empty "p:k"
             (Json.toTokens (envelopeJson (.bool false) none))) "k") :=
  ⟨rfl, rfl, rfl⟩

/-- C8 amended: with the key absent the callback is never invoked (and the
erase option still erases); with a present entry whose value reads TRUTHY,
a function callback and the erase option, the callback is invoked exactly
once with the stored value and the key is erased afterward; the erase
happens regardless of whether the callback ran. -/
theorem executeOnKey_spec (p : String) (st : Store) (now : Int) (k : String)
    (cb er : Bool) :
    (st (CustomStorage.prefixKey p k) = none →
      CustomStorage.executeOnKey p st now k cb er
        = (.ok [], if er then CustomStorage.erase p st k else st))
    ∧ (∀ gv st1, CustomStorage.get p st now k = (.ok gv, st1) →
        jsValTruthy gv = true → cb = true → er = true →
        CustomStorage.executeOnKey p st now k cb er
          = (.ok [gv], CustomStorage.erase p st1 k)) := by
  constructor
  · intro h
    unfold CustomStorage.executeOnKey
    rw [get_absent p st now k h]
    simp [jsValTruthy, jsTruthy]
  · intro gv st1 hget htr hcb her
    subst hcb; subst her
    unfold CustomStorage.executeOnKey
    rw [hget]
    simp [htr]

/-- C8 witness: an absent key invokes nothing; a truthy present entry is
passed to the callback exactly once and then erased. -/
theorem executeOnKey_spec_witness :
    CustomStorage.executeOnKey "p" Store.empty 0 "k" true true
      = (.ok [], CustomStorage.erase "p" Store.empty "k")
    ∧ CustomStorage.executeOnKey "p"
        (Store.insert Store.empty "p:k" (Json.toTokens (envelopeJson (.str "v") none)))
        0 "k" true true
      = (.ok [.val (.str "v")],
         CustomStorage.erase "p"
           (Store.insert Store.empty "p:k"
             (Json.toTokens (envelopeJson (.str "v") none))) "k") :=
  ⟨(executeOnKey_spec "p" Store.empty 0 "k" true true).1 rfl,
   (executeOnKey_spec "p" _ 0 "k" true true).2 (.val (.str "v")) _ rfl rfl rfl rfl⟩

/-- C9: an expiresIn whose unit misses the table (after stripping one
trailing lowercase s and upper-casing) makes the computed expiresAt NaN;
the envelope is still written, NaN serializes as null, and every later get
at a positive current time judges the entry expired (null coerces to zero),
erases it and returns null — an always-expired-on-read entry rather than a
write-time failure. -/
theorem unknown_unit_always_expired (p : String) (st : Store) (nowW : Int)
    (k : String) (v : Json) (s a u : String)
    (hsplit : splitOnSpace s = [a, u])
    (hu : CustomStorage.TIME_UNITS (CustomStorage.normalizeTimeUnit u) = none) :
    (CustomStorage.set p st nowW k v { expiresIn := some s }).1 = .ok ()
    ∧ (CustomStorage.set p st nowW k v { expiresIn := some s }).2
        (CustomStorage.prefixKey p k)
      = some (Json.toTokens (envelopeJson v (some .nan)))
    ∧ envelopeJson v (some .nan) = .obj [("data", v), ("expiresAt", .null)]
    ∧ ∀ nowR : Int, 0 < nowR →
        CustomStorage.get p
            ((CustomStorage.set p st nowW k v { expiresIn := some s }).2) nowR k
          = (.ok (.val .null),
             CustomStorage.erase p
               ((CustomStorage.set p st nowW k v { expiresIn := some s }).2) k) := by
  have hcalc : CustomStorage.calculateExpirationTimestamp nowW s = some .nan := by
    unfold CustomStorage.calculateExpirationTimestamp
      CustomStorage.convertExpirationStringToMilliseconds
      CustomStorage.convertTimeUnitToMilliseconds
    rw [hsplit]
    cases strToNum a <;> simp [hu, jsMul, jsAdd]
  have hset : CustomStorage.set p st nowW k v { expiresIn := some s }
      = (.ok (), Store.insert st (CustomStorage.prefixKey p k)
          (Json.toTokens (envelopeJson v (some .nan)))) := by
    unfold CustomStorage.set
    simp [hcalc]
  refine ⟨by rw [hset], by rw [hset]; exact Store.insert_self _ _ _,
    by simp [envelopeJson], ?_⟩
  intro nowR hpos
  rw [hset]
  rw [get_envelope p _ nowR k v (some .nan) (Store.insert_self _ _ _)]
  simp [isExpired_env_nan, hpos]

/-- C9 witness: "10 foo" at write time 0, read at time 1. -/
theorem unknown_unit_always_expired_witness :
    (CustomStorage.set "p" Store.empty 0 "k" (.str "v") { expiresIn := some "10 foo" }).1
      = .ok ()
    ∧ (CustomStorage.set "p" Store.empty 0 "k" (.str "v")
        { expiresIn := some "10 foo" }).2 (CustomStorage.prefixKey "p" "k")
      = some (Json.toTokens (envelopeJson (.str "v") (some .nan)))
    ∧ CustomStorage.get "p"
        ((CustomStorage.set "p" Store.empty 0 "k" (.str "v")
          { expiresIn := some "10 foo" }).2) 1 "k"
      = (.ok (.val .null),
         CustomStorage.erase "p"
           ((CustomStorage.set "p" Store.empty 0 "k" (.str "v")
             { expiresIn := some "10 foo" }).2) "k") := by
  have h := unknown_unit_always_expired "p" Store.empty 0 "k" (.str "v")
    "10 foo" "10" "foo" rfl rfl
  exact ⟨h.1, h.2.1, h.2.2.2 1 (by decide)⟩

/-- C10: every client operation reads or writes at most the single prefixed
key it was given: any other driver key holds the same value afterwards. -/
theorem ops_touch_only_own_key (p : String) (st : Store) (now : Int) (k q : String)
    (v : Json) (o : SetOptions) (cb er : Bool)
    (h : q ≠ CustomStorage.prefixKey p k) :
    (CustomStorage.set p st now k v o).2 q = st q
    ∧ (CustomStorage.get p st now k).2 q = st q
    ∧ CustomStorage.erase p st k q = st q
    ∧ (CustomStorage.merge p st now k v).2 q = st q
    ∧ (CustomStorage.executeOnKey p st now k cb er).2 q = st q :=
  ⟨set_frame p st now k v o q h, get_frame p st now k q h, erase_frame p st k q h,
   set_frame p st now k v { merge := true } q h,
   executeOnKey_frame p st now k q cb er h⟩

/-- C10 witness: a concrete unrelated driver key is untouched by all five
operations. -/
theorem ops_touch_only_own_key_witness :
    (CustomStorage.set "p" Store.empty 0 "k" (.str "x") {}).2 "q" = Store.empty "q"
    ∧ (CustomStorage.get "p" Store.empty 0 "k").2 "q" = Store.empty "q"
    ∧ CustomStorage.erase "p" Store.empty "k" "q" = Store.empty "q"
    ∧ (CustomStorage.merge "p" Store.empty 0 "k" (.str "x")).2 "q" = Store.empty "q"
    ∧ (CustomStorage.executeOnKey "p" Store.empty 0 "k" true true).2 "q"
        = Store.empty "q" :=
  ops_touch_only_own_key "p" Store.empty 0 "k" "q" (.str "x") {} true true (by decide)
